import Mathlib

/-!
Verification of the CyclePlan waypoint/route editing core.

The TypeScript source is shallowly embedded: coordinates are exact rationals,
the Leaflet great-circle metric (`distanceTo` / `map.distance`) is an explicit
function parameter (its trigonometric formula is irrational), asynchronous
results such as road snapping are passed in as `Option` values, and stateful
operations are pure functions from the previous state to the next one.
-/

set_option linter.unusedVariables false

namespace CyclePlan

/-- A geographic coordinate, as held by the source's `L.LatLng` values.
Coordinates are modelled as exact rationals. -/
structure LatLng where
  lat : ℚ
  lng : ℚ
deriving DecidableEq, Repr

instance : Inhabited LatLng := ⟨⟨0, 0⟩⟩

/-- The metric the source reaches through `L.LatLng.distanceTo` and
`map.distance` (Leaflet great-circle distance).  The spherical formula is not
rational, so the embedding is parameterised by the distance function and
theorems assume only the properties they use. -/
def Dist : Type := LatLng → LatLng → ℚ

/-- Consecutive coordinate pairs of a polyline: the segments that the source's
`for (let i = 0; i < n - 1; i++)` loops walk. -/
def segpairs (l : List LatLng) : List (LatLng × LatLng) := l.zip l.tail

/-- Function `calculateCumulativeDistances` (src/src/waypoints.ts): running
arc-length totals, starting at `[0]` and pushing
`cumulative[i-1] + dist(route[i-1], route[i])`. -/
def calculateCumulativeDistances (d : Dist) (routeLatLngs : List LatLng) : List ℚ :=
  (segpairs routeLatLngs).scanl (fun acc ab => acc + d ab.1 ab.2) 0

/-- The in-loop projection of `projectPointOntoPolyline`
(src/src/waypoints.ts): clamped projection of `point` onto segment `A`-`B`
computed in plain lat/lng coordinates; `t = 0` for a zero-length segment.
Division in the embedding is total, and the source's `lengthSquared === 0`
guard makes the result independent of its value at zero. -/
def projOnSegmentPoint (point A B : LatLng) : LatLng :=
  let Cx := B.lat - A.lat
  let Cy := B.lng - A.lng
  let lengthSquared := Cx * Cx + Cy * Cy
  let t0 : ℚ :=
    if lengthSquared = 0 then 0
    else ((point.lat - A.lat) * Cx + (point.lng - A.lng) * Cy) / lengthSquared
  let t := max 0 (min 1 t0)
  ⟨A.lat + t * Cx, A.lng + t * Cy⟩

/-- The segment scan of `projectPointOntoPolyline` (src/src/waypoints.ts):
walk the segments paired with their cumulative start distances, keeping the
`(perpendicular distance, arc-length position)` of the strictly closest
projection seen so far (`none` plays the role of the initial `Infinity`). -/
def projScan (d : Dist) (point : LatLng) :
    List ((LatLng × LatLng) × ℚ) → Option (ℚ × ℚ) → Option (ℚ × ℚ)
  | [], best => best
  | (⟨A, B⟩, cumA) :: rest, best =>
    let projectedPoint := projOnSegmentPoint point A B
    let distanceToPoint := d projectedPoint point
    let alongDistance := cumA + d A projectedPoint
    projScan d point rest
      (match best with
       | none => some (distanceToPoint, alongDistance)
       | some b =>
         if distanceToPoint < b.1 then some (distanceToPoint, alongDistance) else some b)

/-- Function `projectPointOntoPolyline` (src/src/waypoints.ts): minimum
perpendicular distance over all segments (`none` models the initial
`Infinity` surviving when there is no segment), and the arc-length position of
that projection clamped to `[0, totalLength]`. -/
def projectPointOntoPolyline (d : Dist) (point : LatLng) (routeLatLngs : List LatLng)
    (cumulativeDistances : List ℚ) : Option ℚ × ℚ :=
  let totalLength := cumulativeDistances.getLastD 0
  let best := projScan d point ((segpairs routeLatLngs).zip cumulativeDistances) none
  (best.map Prod.fst, max 0 (min totalLength ((best.map Prod.snd).getD 0)))

/-- The wrapped-gap membership test from the first loop of
`findBestInsertionIndex` (src/src/waypoints.ts): gap `i` runs from waypoint
`i` to waypoint `(i+1) % m`; the gap end is shifted by `totalLength` on the
wrap-around gap (`i = m-1` with `b ≤ a`), the anchor position is shifted
forward when it lies before the gap start, and membership is
`na > a && na <= b`. -/
def wrappedGapContains (routingPointsAlong : List ℚ) (totalLength newAlong : ℚ)
    (i : ℕ) : Bool :=
  let m := routingPointsAlong.length
  let a := routingPointsAlong.getD i 0
  let b0 := routingPointsAlong.getD ((i + 1) % m) 0
  let b := if i = m - 1 ∧ b0 ≤ a then b0 + totalLength else b0
  let na := if newAlong < a then newAlong + totalLength else newAlong
  decide (a < na ∧ na ≤ b)

/-- Gap length from the fallback loop of `findBestInsertionIndex`
(src/src/waypoints.ts), with the same wrap-around adjustment on the final
gap. -/
def wrappedGapLength (routingPointsAlong : List ℚ) (totalLength : ℚ) (i : ℕ) : ℚ :=
  let m := routingPointsAlong.length
  let a := routingPointsAlong.getD i 0
  let b := routingPointsAlong.getD ((i + 1) % m) 0
  if i = m - 1 ∧ b ≤ a then (b + totalLength) - a else b - a

/-- First index in `[i, i + count)` satisfying `p`: the early-return `for`
loop of `findBestInsertionIndex`. -/
def scanFirst (p : ℕ → Bool) : ℕ → ℕ → Option ℕ
  | 0, _ => none
  | count + 1, i => if p i then some i else scanFirst p count (i + 1)

/-- The fallback loop of `findBestInsertionIndex` (src/src/waypoints.ts):
running over gaps `[i, i + count)`, keep the insertion index `j + 1` of the
first gap `j` of strictly smallest length (`none` plays the initial
`Infinity`). -/
def bestGapLoop (len : ℕ → ℚ) : ℕ → ℕ → Option ℚ → ℕ → ℕ
  | 0, _, _, bestIndex => bestIndex
  | count + 1, i, bestGap, bestIndex =>
    let gap := len i
    if (bestGap.map fun bg => decide (gap < bg)).getD true then
      bestGapLoop len count (i + 1) (some gap) (i + 1)
    else
      bestGapLoop len count (i + 1) bestGap bestIndex

/-- Function `findBestInsertionIndex` (src/src/waypoints.ts): project every
routing point and the anchor onto the polyline, return `i + 1` for the first
gap `i` whose wrapped interval contains the anchor position, and otherwise
`i + 1` for the first gap of smallest wrapped length (with initial best index
`m`). -/
def findBestInsertionIndex (d : Dist) (routingPoints : List LatLng) (anchorPoint : LatLng)
    (routeLatLngs : List LatLng) (cumulativeDistances : List ℚ) : ℕ :=
  let totalLength := cumulativeDistances.getLastD 0
  let routingPointsAlong := routingPoints.map fun rp =>
    (projectPointOntoPolyline d rp routeLatLngs cumulativeDistances).2
  let newAlong := (projectPointOntoPolyline d anchorPoint routeLatLngs cumulativeDistances).2
  let m := routingPoints.length
  match scanFirst (wrappedGapContains routingPointsAlong totalLength newAlong) m 0 with
  | some i => i + 1
  | none => bestGapLoop (wrappedGapLength routingPointsAlong totalLength) m 0 none m

/-- Function `projectPointToSegment` (src/src/routing.ts): clamped projection
in plain lat/lng coordinates together with its parameter `t`.  A zero-length
segment takes `param = 0` (the guard avoids the division), which lands in the
final branch and returns the segment start. -/
def projectPointToSegment (p a b : LatLng) : LatLng × ℚ :=
  let A := p.lat - a.lat
  let B := p.lng - a.lng
  let C := b.lat - a.lat
  let D := b.lng - a.lng
  let dot := A * C + B * D
  let lenSq := C * C + D * D
  let param : ℚ := if lenSq ≠ 0 then dot / lenSq else 0
  if param < 0 then (⟨a.lat, a.lng⟩, 0)
  else if param > 1 then (⟨b.lat, b.lng⟩, 1)
  else (⟨a.lat + param * C, a.lng + param * D⟩, param)

/-- Function `getDistanceToLineSegment` (src/src/routing.ts) modelled without
the final `Math.sqrt` (irrational): the squared clamped point-to-segment
distance.  Squaring is strictly monotone on non-negative values, so every
comparison the source makes between such distances is preserved.  A
zero-length segment takes `param = -1` (the guard avoids the division), so
the first branch returns the distance to the segment start. -/
def getDistanceToLineSegmentSq (point lineStart lineEnd : LatLng) : ℚ :=
  let A := point.lat - lineStart.lat
  let B := point.lng - lineStart.lng
  let C := lineEnd.lat - lineStart.lat
  let D := lineEnd.lng - lineStart.lng
  let dot := A * C + B * D
  let lenSq := C * C + D * D
  let param : ℚ := if lenSq ≠ 0 then dot / lenSq else -1
  let foot : LatLng :=
    if param < 0 then ⟨lineStart.lat, lineStart.lng⟩
    else if param > 1 then ⟨lineEnd.lat, lineEnd.lng⟩
    else ⟨lineStart.lat + param * C, lineStart.lng + param * D⟩
  (point.lat - foot.lat) * (point.lat - foot.lat) +
    (point.lng - foot.lng) * (point.lng - foot.lng)

/-- The nearest-segment scan of `distanceAlongPolyline` (src/src/routing.ts):
over the indexed segments, keep `(distance, index, projected point)` of the
strictly closest projection (`none` is the initial `dist: Infinity,
index: -1`). -/
def nearestScan (d : Dist) (point : LatLng) :
    List (LatLng × LatLng) → ℕ → Option (ℚ × ℕ × LatLng) → Option (ℚ × ℕ × LatLng)
  | [], _, nearest => nearest
  | ab :: rest, i, nearest =>
    let proj := (projectPointToSegment point ab.1 ab.2).1
    let dd := d proj point
    nearestScan d point rest (i + 1)
      (match nearest with
       | none => some (dd, i, proj)
       | some n => if dd < n.1 then some (dd, i, proj) else some n)

/-- Sum of the first `k` segment lengths of a polyline, as the second loop of
`distanceAlongPolyline` accumulates them. -/
def sumSegs (d : Dist) (l : List LatLng) (k : ℕ) : ℚ :=
  ((segpairs l).take k).foldl (fun acc ab => acc + d ab.1 ab.2) 0

/-- Function `distanceAlongPolyline` (src/src/routing.ts): distance from the
polyline start to the projection of `point` onto its nearest segment — the
segment lengths before that segment plus the partial distance on it; `0` when
there is no segment at all. -/
def distanceAlongPolyline (d : Dist) (latlngs : List LatLng) (point : LatLng) : ℚ :=
  match nearestScan d point (segpairs latlngs) 0 none with
  | none => 0
  | some n => sumSegs d latlngs n.2.1 + d (latlngs.getD n.2.1 default) n.2.2

/-- A JavaScript coordinate value, distinguished exactly as the validation
filter of `fetchOsrmRoute` (src/src/routing.ts) can distinguish them:
`nonNum` covers `NaN` and non-number values (rejected by
`typeof ... === 'number' && !isNaN(...)`), `inf` / `negInf` are the JS
infinities (which that filter accepts), and `fin q` is a finite number. -/
inductive JSNum where
  | nonNum : JSNum
  | inf : JSNum
  | negInf : JSNum
  | fin : ℚ → JSNum
deriving DecidableEq, Repr

/-- A waypoint as received by `fetchOsrmRoute`: `none` is a null/undefined
entry, otherwise a pair of JS numbers `(lat, lng)`. -/
def RawPoint : Type := Option (JSNum × JSNum)

/-- The per-point validation of `fetchOsrmRoute` (src/src/routing.ts): the
point exists and both coordinates pass `typeof === 'number' && !isNaN`. -/
def isValidWaypoint : RawPoint → Bool
  | none => false
  | some (la, ln) => decide (la ≠ JSNum.nonNum) && decide (ln ≠ JSNum.nonNum)

/-- An HTTP request to the routing backend, reduced to what the URL encodes:
the OSRM service name, the profile, and the coordinate list. -/
structure OsrmRequest where
  service : String
  profile : String
  coords : List (JSNum × JSNum)
deriving DecidableEq, Repr

/-- Outcome of `fetchOsrmRoute` up to the network boundary: `noRoute` models
the early `return null`, `request r` models issuing the HTTP request `r`. -/
inductive FetchOutcome where
  | noRoute : FetchOutcome
  | request : OsrmRequest → FetchOutcome
deriving DecidableEq, Repr

/-- Function `fetchOsrmRoute` (src/src/routing.ts) up to the network boundary:
fewer than 2 entries returns null; fewer than 2 filter-valid entries throws
`Invalid waypoints provided`; a round trip with at least 3 valid entries
issues a Route-service (never Trip-service) request with the first valid
coordinate appended as the final one; otherwise an ordinary Route-service
request over the valid coordinates in input order. -/
def fetchOsrmRoute (waypoints : List RawPoint) (isRoundTrip : Bool) :
    Except String FetchOutcome :=
  if waypoints.length < 2 then .ok .noRoute
  else
    let validWaypoints := (waypoints.filter isValidWaypoint).filterMap id
    if validWaypoints.length < 2 then .error "Invalid waypoints provided"
    else if isRoundTrip ∧ 3 ≤ validWaypoints.length then
      .ok (.request ⟨"route", "cycling",
        validWaypoints ++ [validWaypoints.headD (JSNum.fin 0, JSNum.fin 0)]⟩)
    else
      .ok (.request ⟨"route", "cycling", validWaypoints⟩)

/-- JavaScript `Array.splice(i, 0, x)`: insert `x` at position `i`, where an
index beyond the end appends. -/
def spliceInsert {α : Type} (l : List α) (i : ℕ) (x : α) : List α :=
  l.take i ++ x :: l.drop i

/-- Function `insertWaypointByPolylineProjection` (src/src/waypoints.ts) as a
pure effect on `state.routingPoints`: `none` models `return false` (polyline
shorter than 2 coordinates); otherwise the snapped-or-raw drop point is
spliced in at `findBestInsertionIndex`.  `snapResult` is the outcome of the
`snapToNearestRoad(dropPoint)` call (`none` = snapping failed). -/
def insertWaypointByPolylineProjection (d : Dist) (dropPoint : LatLng)
    (routingPoints : List LatLng) (routeLatLngs : List LatLng)
    (snapResult : Option LatLng) (anchorPoint : Option LatLng) :
    Option (List LatLng) :=
  if routeLatLngs.length < 2 then none
  else
    let cumulativeDistances := calculateCumulativeDistances d routeLatLngs
    let insertIndex := findBestInsertionIndex d routingPoints
      (anchorPoint.getD dropPoint) routeLatLngs cumulativeDistances
    let pointToInsert := snapResult.getD dropPoint
    some (spliceInsert routingPoints insertIndex pointToInsert)

/-- The segment loop of `insertWaypointByNearestSegment`
(src/src/waypoints.ts): over segments `(points[i], points[(i+1) % n])` for
the next `count` indices starting at `i`, keep
`(bestCandidate, bestSegmentIndex)` of the strictly smallest point-to-segment
distance (squared distances preserve those comparisons; `none` is the initial
`Infinity`). -/
def nearestSegLoop (routingPoints : List LatLng) (referencePoint : LatLng) :
    ℕ → ℕ → Option ℚ → ℕ × ℕ → ℕ × ℕ
  | 0, _, _, best => best
  | count + 1, i, minDistance, best =>
    let n := routingPoints.length
    let a := routingPoints.getD i default
    let b := routingPoints.getD ((i + 1) % n) default
    let distance := getDistanceToLineSegmentSq referencePoint a b
    if (minDistance.map fun m => decide (distance < m)).getD true then
      nearestSegLoop routingPoints referencePoint count (i + 1) (some distance) ((i + 1) % n, i)
    else
      nearestSegLoop routingPoints referencePoint count (i + 1) minDistance best

/-- Function `insertWaypointByNearestSegment` (src/src/waypoints.ts) as a pure
effect on `state.routingPoints`: splice the snapped-or-raw drop point after
the waypoint starting the segment nearest to the anchor, where winning on the
wrap-around segment appends at the end. -/
def insertWaypointByNearestSegment (dropPoint : LatLng) (routingPoints : List LatLng)
    (snapResult : Option LatLng) (anchorPoint : Option LatLng) : List LatLng :=
  let referencePoint := anchorPoint.getD dropPoint
  let n := routingPoints.length
  let best := nearestSegLoop routingPoints referencePoint n 0 none (1, 0)
  let insertIndex := if best.1 = 0 ∧ best.2 = n - 1 then n else best.1
  let pointToInsert := snapResult.getD dropPoint
  spliceInsert routingPoints insertIndex pointToInsert

/-- Function `insertWaypointAtBestPosition` (src/src/waypoints.ts) as a pure
effect on `state.routingPoints`: no-op below 2 points; otherwise try
polyline-projection insertion on the polyline found for insertion
(`usedPolyline`, already flattened), falling back to nearest-segment
insertion when there is no polyline or it has fewer than 2 coordinates. -/
def insertWaypointAtBestPosition (d : Dist) (dropPoint : LatLng)
    (routingPoints : List LatLng) (usedPolyline : Option (List LatLng))
    (snapResult : Option LatLng) (anchorPoint : Option LatLng) : List LatLng :=
  if routingPoints.length < 2 then routingPoints
  else
    match usedPolyline with
    | some polyline =>
      match insertWaypointByPolylineProjection d dropPoint routingPoints polyline
        snapResult anchorPoint with
      | some result => result
      | none => insertWaypointByNearestSegment dropPoint routingPoints snapResult anchorPoint
    | none => insertWaypointByNearestSegment dropPoint routingPoints snapResult anchorPoint

/-- A persisted saved-route record (src/src/types.ts `SavedRoute`); the
optional `isRoundTrip` field distinguishes records written before the flag
existed (`undefined` in JS). -/
structure SavedRoute where
  id : String
  name : String
  description : String
  points : List LatLng
  distance : ℚ
  isRoundTrip : Option Bool
  created : String
deriving DecidableEq, Repr

/-- Function `saveCurrentRoute` (src/src/routeStorage.ts) as a pure effect on
the stored list: an empty draft alerts and changes nothing; a name collision
asks for confirmation (`confirmOverwrite` is the user's answer) and, if
declined, changes nothing; on a confirmed collision every record of that name
is removed before the new record (with the freshly generated id and
timestamp) is appended. -/
def saveCurrentRoute (routes : List SavedRoute) (routingPoints : List LatLng)
    (currentRouteDistance : ℚ) (name description : String) (isRoundTrip : Bool)
    (confirmOverwrite : Bool) (newId created : String) : List SavedRoute :=
  if routingPoints.length = 0 then routes
  else
    let newRoute : SavedRoute :=
      ⟨newId, name, description, routingPoints, currentRouteDistance, some isRoundTrip, created⟩
    if routes.any fun route => decide (route.name = name) then
      if confirmOverwrite then
        (routes.filter fun route => decide (route.name ≠ name)) ++ [newRoute]
      else routes
    else routes ++ [newRoute]

/-- In-place mutation of the first record with the given id, as the source's
`routes.find(...)` followed by field assignment and `saveSavedRoutes(routes)`
behaves. -/
def updateFirstById (f : SavedRoute → SavedRoute) : List SavedRoute → String → List SavedRoute
  | [], _ => []
  | r :: rs, routeId => if r.id = routeId then f r :: rs else r :: updateFirstById f rs routeId

/-- Function `renameSavedRoute` (src/src/routeStorage.ts) as a pure effect:
an unknown id alerts and changes nothing; a new name already used by a
different record alerts and changes nothing (no overwrite is offered);
otherwise the record's name is updated in place. -/
def renameSavedRoute (routes : List SavedRoute) (routeId newName : String) :
    List SavedRoute :=
  match routes.find? fun r => decide (r.id = routeId) with
  | none => routes
  | some _ =>
    if routes.any fun r => decide (r.name = newName) && decide (r.id ≠ routeId) then routes
    else updateFirstById (fun r => { r with name := newName }) routes routeId

/-- Function `updateExistingRoute` (src/src/routeStorage.ts) as a pure effect:
an unknown id alerts and changes nothing; a name used by a different record
alerts and changes nothing; otherwise the record's fields are updated in
place (`isRoundTrip` only when a boolean was passed). -/
def updateExistingRoute (routes : List SavedRoute) (routeId : String)
    (routingPoints : List LatLng) (currentRouteDistance : ℚ)
    (name description : String) (isRoundTrip : Option Bool) : List SavedRoute :=
  match routes.find? fun r => decide (r.id = routeId) with
  | none => routes
  | some _ =>
    if routes.any fun r => decide (r.name = name) && decide (r.id ≠ routeId) then routes
    else
      updateFirstById (fun r =>
        { r with
          name := name
          description := description
          points := routingPoints
          distance := currentRouteDistance
          isRoundTrip := match isRoundTrip with
            | some b => some b
            | none => r.isRoundTrip }) routes routeId

/-- The live draft state (src/src/types.ts `AppState`), restricted to the
fields the waypoint core mutates; markers are modelled by their positions and
the rendered route layer by its polylines' coordinate lists. -/
structure AppState where
  routingPoints : List LatLng
  routingMarkers : List LatLng
  routeLayer : List (List LatLng)
  currentRouteDistance : ℚ
  currentLoadedRouteId : Option String
  isRoundTrip : Bool
  isRouteModified : Bool
deriving DecidableEq, Repr

/-- Function `resetRoute` (src/src/waypoints.ts): clear points, markers, the
route layer, distance, the loaded-route id and the modified flag (the
round-trip flag is not touched). -/
def resetRoute (state : AppState) : AppState :=
  { state with
    routingPoints := []
    routingMarkers := []
    routeLayer := []
    currentRouteDistance := 0
    currentLoadedRouteId := none
    isRouteModified := false }

/-- Function `loadSavedRoute` (src/src/waypoints.ts) as a pure effect: an id
absent from the store alerts (`true` in the second component) and leaves the
draft untouched; otherwise the draft is reset and loaded from the record
(round-trip flag via `!!route.isRoundTrip`), markers are redrawn at the
loaded points, and no alert is raised. -/
def loadSavedRoute (routes : List SavedRoute) (routeId : String) (state : AppState) :
    AppState × Bool :=
  match routes.find? fun r => decide (r.id = routeId) with
  | none => (state, true)
  | some route =>
    let cleared := resetRoute state
    let loaded : AppState :=
      { cleared with
        routingPoints := route.points
        routingMarkers := route.points
        currentRouteDistance := route.distance
        currentLoadedRouteId := some routeId
        isRoundTrip := route.isRoundTrip.getD false
        isRouteModified := false }
    (loaded, false)

/-- A planar point `{x, y}` as the simplify-js dependency sees it
(`x = lon`, `y = lat`). -/
abbrev Pt : Type := ℚ × ℚ

/-- Function `getSqSegDist` from the simplify-js dependency used by
`trimTrkpt` (src/src/types.ts): squared distance from `p` to segment
`p1`-`p2`, with the zero-length segment handled before any division. -/
def getSqSegDist (p p1 p2 : Pt) : ℚ :=
  let x := p1.1
  let y := p1.2
  let dx := p2.1 - x
  let dy := p2.2 - y
  let foot : Pt :=
    if dx ≠ 0 ∨ dy ≠ 0 then
      let t := ((p.1 - x) * dx + (p.2 - y) * dy) / (dx * dx + dy * dy)
      if t > 1 then (p2.1, p2.2)
      else if t > 0 then (x + dx * t, y + dy * t)
      else (x, y)
    else (x, y)
  (p.1 - foot.1) * (p.1 - foot.1) + (p.2 - foot.2) * (p.2 - foot.2)

/-- The scan inside `simplifyDPStep` (simplify-js): over the interior points
(paired with their absolute index, starting at `i`), keep the first index of
strictly maximal squared segment distance, where only distances above
`sqTolerance` count (`none` = no point exceeded the tolerance yet). -/
def farthestScan (a b : Pt) (sqTolerance : ℚ) : List Pt → ℕ → Option (ℕ × ℚ) → Option (ℕ × ℚ)
  | [], _, acc => acc
  | p :: rest, i, acc =>
    let sqDist := getSqSegDist p a b
    if sqDist > (acc.map Prod.snd).getD sqTolerance then
      farthestScan a b sqTolerance rest (i + 1) (some (i, sqDist))
    else
      farthestScan a b sqTolerance rest (i + 1) acc

lemma farthestScan_some_range (a b : Pt) (sqTolerance : ℚ) (lo : ℕ) :
    ∀ (l : List Pt) (i : ℕ) (acc : Option (ℕ × ℚ)),
    (∀ j0 s0, acc = some (j0, s0) → lo ≤ j0 ∧ j0 < i) → lo ≤ i →
    ∀ j s, farthestScan a b sqTolerance l i acc = some (j, s) →
    lo ≤ j ∧ j < i + l.length := by
  intro l
  induction l with
  | nil =>
    intro i acc hacc hlo j s h
    rw [farthestScan] at h
    have := hacc j s h
    simpa using this
  | cons p rest ih =>
    intro i acc hacc hlo j s h
    rw [farthestScan] at h
    simp only [List.length_cons]
    split at h
    · have := ih (i + 1) (some (i, getSqSegDist p a b))
        (fun j0 s0 h0 => by
          injection h0 with h0
          injection h0 with h1 h2
          omega)
        (by omega) j s h
      omega
    · have := ih (i + 1) acc
        (fun j0 s0 h0 => by have := hacc j0 s0 h0; omega)
        (by omega) j s h
      omega

/-- Function `simplifyDPStep` (simplify-js) with an explicit fuel argument:
the interior points kept, in order, for the polyline segment `l` (whose
endpoints are `l`'s head and last element).  When the farthest interior point
exceeds the tolerance, recurse on the two half segments exactly when they
still have interior points.  The source recursion always terminates because
each half is strictly shorter; `dpSeg` passes `l.length` as fuel, which by
that same bound (`farthestScan_some_range`) the recursion never exhausts, so
the zero-fuel branch is unreachable (`dpSegFuel_stable`). -/
def dpSegFuel (sqTolerance : ℚ) : ℕ → List Pt → List Pt
  | 0, _ => []
  | fuel + 1, l =>
    match farthestScan (l.headD (0, 0)) (l.getLastD (0, 0)) sqTolerance
        ((l.drop 1).dropLast) 1 none with
    | none => []
    | some (index, _) =>
      (if 1 < index then dpSegFuel sqTolerance fuel (l.take (index + 1)) else []) ++
        l.getD index (0, 0) ::
          (if 1 < l.length - 1 - index then dpSegFuel sqTolerance fuel (l.drop index) else [])

lemma dpSegFuel_stable (sqTolerance : ℚ) :
    ∀ (fuel1 : ℕ) (l : List Pt) (fuel2 : ℕ), l.length ≤ fuel1 → l.length ≤ fuel2 →
    dpSegFuel sqTolerance fuel1 l = dpSegFuel sqTolerance fuel2 l := by
  intro fuel1
  induction fuel1 with
  | zero =>
    intro l fuel2 h1 h2
    have hl : l = [] := List.length_eq_zero.mp (Nat.le_zero.mp h1)
    subst hl
    cases fuel2 with
    | zero => rfl
    | succ f => simp [dpSegFuel, farthestScan]
  | succ f1 ih =>
    intro l fuel2 h1 h2
    cases fuel2 with
    | zero =>
      have hl : l = [] := List.length_eq_zero.mp (Nat.le_zero.mp h2)
      subst hl
      simp [dpSegFuel, farthestScan]
    | succ f2 =>
      rw [dpSegFuel, dpSegFuel]
      cases h : farthestScan (l.headD (0, 0)) (l.getLastD (0, 0)) sqTolerance
          ((l.drop 1).dropLast) 1 none with
      | none => rfl
      | some js =>
        obtain ⟨index, s⟩ := js
        have hrange := farthestScan_some_range (l.headD (0, 0)) (l.getLastD (0, 0))
          sqTolerance 1 ((l.drop 1).dropLast) 1 none
          (fun j0 s0 h0 => Option.noConfusion h0) (le_refl 1) index s h
        simp only [List.length_dropLast, List.length_drop] at hrange
        have htake : (l.take (index + 1)).length ≤ f1 := by
          simp only [List.length_take]; omega
        have htake2 : (l.take (index + 1)).length ≤ f2 := by
          simp only [List.length_take]; omega
        have hdrop : (l.drop index).length ≤ f1 := by
          simp only [List.length_drop]; omega
        have hdrop2 : (l.drop index).length ≤ f2 := by
          simp only [List.length_drop]; omega
        dsimp only
        rw [ih (l.take (index + 1)) f2 htake htake2, ih (l.drop index) f2 hdrop hdrop2]

/-- The `simplifyDPStep` recursion at its entry point, with enough fuel. -/
def dpSeg (sqTolerance : ℚ) (l : List Pt) : List Pt :=
  dpSegFuel sqTolerance l.length l

/-- Function `simplifyDouglasPeucker` (simplify-js): first point, kept
interior points, last point. -/
def simplifyDouglasPeucker (pts : List Pt) (sqTolerance : ℚ) : List Pt :=
  pts.headD (0, 0) :: dpSeg sqTolerance pts ++ [pts.getLastD (0, 0)]

/-- Function `simplify` (simplify-js) as `trimTrkpt` calls it
(`highestQuality = true`): lists of at most 2 points pass through, otherwise
Douglas-Peucker at the squared tolerance. -/
def simplifyPts (pts : List Pt) (tolerance : ℚ) : List Pt :=
  if pts.length ≤ 2 then pts else simplifyDouglasPeucker pts (tolerance * tolerance)

/-- Constant `Precision.LOW` (src/src/types.ts): 0.0008 degrees. -/
def precisionLOW : ℚ := 8 / 10000

/-- Constant `Precision.VERYHIGH` (src/src/types.ts): 0.00001 degrees, the
default trimming threshold. -/
def precisionVERYHIGH : ℚ := 1 / 100000

/-- Function `trimTrkpt` (src/src/types.ts): `Precision.ORIGINAL` (`0`) keeps
the coordinates, any other threshold runs simplify-js over them (the
source's conversions between `[lon, lat]` arrays and `{x, y}` records are
identities here). -/
def trimTrkpt (coordinates : List Pt) (threshold : ℚ) : List Pt :=
  if threshold = 0 then coordinates else simplifyPts coordinates threshold

/-- The cap `maxThreshold = 0.001` of the threshold-doubling loop of
`trimGPXPoints` (src/src/types.ts). -/
def maxThreshold : ℚ := 1 / 1000

/-- The `while` loop of `trimGPXPoints` (src/src/types.ts) with an explicit
fuel argument; the source loop is unbounded, and `trimGPXPoints` passes
enough fuel for every positive threshold (`trimLoop_spec`).  While over the
point limit and under `maxThreshold`, double the threshold (`t * 2 || LOW`)
and re-trim the original coordinates.  Returns the final threshold and
list. -/
def trimLoop (coords : List Pt) (maxPoints : ℕ) : ℕ → ℚ → List Pt → ℚ × List Pt
  | 0, t, trimmed => (t, trimmed)
  | fuel + 1, t, trimmed =>
    if maxPoints < trimmed.length ∧ t < maxThreshold then
      let t2 := if t * 2 = 0 then precisionLOW else t * 2
      trimLoop coords maxPoints fuel t2 (trimTrkpt coords t2)
    else (t, trimmed)

/-- Function `trimGPXPoints` (src/src/types.ts): when the flat point count
exceeds `maxPoints` (and `maxPoints > 0`), simplify at the given threshold
and keep doubling the threshold while still over the limit and under
`maxThreshold`; otherwise pass the points through.  The `{lat,lng}` to
`[lon,lat]` conversions of the source are identities here. -/
def trimGPXPoints (points : List Pt) (threshold : ℚ) (maxPoints : ℕ) : List Pt :=
  if maxPoints < points.length ∧ 0 < maxPoints then
    (trimLoop points maxPoints 1000 threshold (trimTrkpt points threshold)).2
  else points

/-! ## General helper lemmas -/

lemma spliceInsert_length {α : Type} (l : List α) (i : ℕ) (x : α) :
    (spliceInsert l i x).length = l.length + 1 := by
  simp only [spliceInsert, List.length_append, List.length_take, List.length_cons,
    List.length_drop]
  omega

lemma valid_length_le (waypoints : List RawPoint) :
    ((waypoints.filter isValidWaypoint).filterMap id).length ≤ waypoints.length :=
  le_trans (List.length_filterMap_le _ _) (List.length_filter_le _ _)

/-! ## C2 / C4 / C9: the routing client -/

/-- C2: for every route request with the round-trip flag set, when the valid
point list has at least 3 entries the coordinate list sent to the backend is
those points in their original order followed by a duplicate of the first
one, issued through the ordinary `route` (never `trip`) service; with 2 valid
points the appended-duplicate step is skipped and ordinary point-to-point
routing runs; and when every input entry is valid, the valid list is exactly
the input points. -/
theorem fetchOsrmRoute_roundTrip_appends_first (waypoints : List RawPoint) :
    (3 ≤ ((waypoints.filter isValidWaypoint).filterMap id).length →
      fetchOsrmRoute waypoints true = Except.ok (FetchOutcome.request
        ⟨"route", "cycling",
          (waypoints.filter isValidWaypoint).filterMap id ++
            [((waypoints.filter isValidWaypoint).filterMap id).headD
              (JSNum.fin 0, JSNum.fin 0)]⟩)) ∧
    (((waypoints.filter isValidWaypoint).filterMap id).length = 2 →
      fetchOsrmRoute waypoints true = Except.ok (FetchOutcome.request
        ⟨"route", "cycling", (waypoints.filter isValidWaypoint).filterMap id⟩)) ∧
    ((∀ p ∈ waypoints, isValidWaypoint p = true) →
      (waypoints.filter isValidWaypoint).filterMap id = waypoints.filterMap id) := by
  have hle := valid_length_le waypoints
  refine ⟨fun h3 => ?_, fun h2 => ?_, fun hall => ?_⟩
  · have hw : ¬ waypoints.length < 2 := by omega
    have hv : ¬ ((waypoints.filter isValidWaypoint).filterMap id).length < 2 := by omega
    simp only [fetchOsrmRoute, if_neg hw, if_neg hv]
    rw [if_pos (And.intro trivial h3)]
  · have hw : ¬ waypoints.length < 2 := by omega
    have hv : ¬ ((waypoints.filter isValidWaypoint).filterMap id).length < 2 := by omega
    simp only [fetchOsrmRoute, if_neg hw, if_neg hv]
    rw [if_neg]
    rintro ⟨-, h⟩
    omega
  · rw [List.filter_eq_self.mpr hall]

/-- Witness for C2 at Scenario C of the spec: a round trip over
`[(0,0), (0,1), (1,1)]` requests coordinates `[(0,0), (0,1), (1,1), (0,0)]`
through the `route` service. -/
theorem fetchOsrmRoute_roundTrip_appends_first_witness :
    fetchOsrmRoute [some (JSNum.fin 0, JSNum.fin 0), some (JSNum.fin 0, JSNum.fin 1),
        some (JSNum.fin 1, JSNum.fin 1)] true =
      Except.ok (FetchOutcome.request ⟨"route", "cycling",
        [(JSNum.fin 0, JSNum.fin 0), (JSNum.fin 0, JSNum.fin 1),
          (JSNum.fin 1, JSNum.fin 1), (JSNum.fin 0, JSNum.fin 0)]⟩) := by
  rw [(fetchOsrmRoute_roundTrip_appends_first
    [some (JSNum.fin 0, JSNum.fin 0), some (JSNum.fin 0, JSNum.fin 1),
      some (JSNum.fin 1, JSNum.fin 1)]).1 (by decide)]
  rfl

/-- Counterexample to C4 as stated: for the empty input list (which has fewer
than 2 valid points) the route-computation function does not fail with an
invalid-input error — it returns the no-route outcome (`return null` in the
source) without any error. -/
theorem fetchOsrmRoute_short_list_no_error :
    fetchOsrmRoute ([] : List RawPoint) false = Except.ok FetchOutcome.noRoute ∧
    ¬ ∃ e, fetchOsrmRoute ([] : List RawPoint) false = Except.error e := by
  refine ⟨rfl, ?_⟩
  rintro ⟨e, he⟩
  simp [fetchOsrmRoute] at he

/-- C4 (amended): input lists with at least 2 entries but fewer than 2 points
passing the validity filter fail with the invalid-input error, while lists
with fewer than 2 entries yield the no-route outcome without any error. -/
theorem fetchOsrmRoute_invalid_input_error (waypoints : List RawPoint) (isRoundTrip : Bool) :
    (2 ≤ waypoints.length →
      ((waypoints.filter isValidWaypoint).filterMap id).length < 2 →
      fetchOsrmRoute waypoints isRoundTrip = Except.error "Invalid waypoints provided") ∧
    (waypoints.length < 2 →
      fetchOsrmRoute waypoints isRoundTrip = Except.ok FetchOutcome.noRoute) := by
  refine ⟨fun h2 hv => ?_, fun hw => ?_⟩
  · have hw : ¬ waypoints.length < 2 := by omega
    simp only [fetchOsrmRoute, if_neg hw, if_pos hv]
  · simp only [fetchOsrmRoute, if_pos hw]

/-- Witness for the amended C4: a 2-entry list whose first entry has a `NaN`
latitude errors, and a 1-entry list returns no route. -/
theorem fetchOsrmRoute_invalid_input_error_witness :
    fetchOsrmRoute [some (JSNum.nonNum, JSNum.fin 0), some (JSNum.nonNum, JSNum.fin 1)]
        false = Except.error "Invalid waypoints provided" ∧
    fetchOsrmRoute [some (JSNum.fin 0, JSNum.fin 0)] false =
      Except.ok FetchOutcome.noRoute := by
  constructor
  · exact (fetchOsrmRoute_invalid_input_error
      [some (JSNum.nonNum, JSNum.fin 0), some (JSNum.nonNum, JSNum.fin 1)] false).1
      (by decide) (by decide)
  · exact (fetchOsrmRoute_invalid_input_error
      [some (JSNum.fin 0, JSNum.fin 0)] false).2 (by decide)

/-- Counterexample to C9 as stated: an input whose first entry has an
infinite latitude and which contains 2 valid (finite) points.  The filter
keeps the infinite entry (`isNaN(Infinity)` is false in JS), so the request
is not issued over the remaining valid points only — the non-finite
coordinate is sent to the backend. -/
theorem fetchOsrmRoute_keeps_infinite_coordinate :
    fetchOsrmRoute [some (JSNum.inf, JSNum.fin 0), some (JSNum.fin 0, JSNum.fin 0),
        some (JSNum.fin 1, JSNum.fin 1)] false =
      Except.ok (FetchOutcome.request ⟨"route", "cycling",
        [(JSNum.inf, JSNum.fin 0), (JSNum.fin 0, JSNum.fin 0),
          (JSNum.fin 1, JSNum.fin 1)]⟩) ∧
    ([(JSNum.inf, JSNum.fin 0), (JSNum.fin 0, JSNum.fin 0), (JSNum.fin 1, JSNum.fin 1)] ≠
      [(JSNum.fin 0, JSNum.fin 0), (JSNum.fin 1, JSNum.fin 1)]) := by
  exact ⟨rfl, by decide⟩

/-- C9 (amended): for every input list with at least 2 entries passing the
code's validity filter (non-null with non-NaN numeric coordinates; infinite
coordinates also pass), the function silently filters out only the entries
failing that filter and issues — without reporting any error — an ordinary
`route` request through the remaining filter-valid points in their original
relative order (plus the round-trip duplicate of the first one when that
mode applies). -/
theorem fetchOsrmRoute_filters_nonnumeric_silently (waypoints : List RawPoint)
    (isRoundTrip : Bool)
    (h2 : 2 ≤ ((waypoints.filter isValidWaypoint).filterMap id).length) :
    fetchOsrmRoute waypoints isRoundTrip = Except.ok (FetchOutcome.request
      ⟨"route", "cycling",
        if isRoundTrip = true ∧ 3 ≤ ((waypoints.filter isValidWaypoint).filterMap id).length
        then (waypoints.filter isValidWaypoint).filterMap id ++
          [((waypoints.filter isValidWaypoint).filterMap id).headD (JSNum.fin 0, JSNum.fin 0)]
        else (waypoints.filter isValidWaypoint).filterMap id⟩) := by
  have hle := valid_length_le waypoints
  have hw : ¬ waypoints.length < 2 := by omega
  have hv : ¬ ((waypoints.filter isValidWaypoint).filterMap id).length < 2 := by omega
  simp only [fetchOsrmRoute, if_neg hw, if_neg hv]
  split <;> rfl

/-- Witness for the amended C9: a list with a `NaN` entry between two valid
points routes through the two valid points only, with no error. -/
theorem fetchOsrmRoute_filters_nonnumeric_silently_witness :
    fetchOsrmRoute [some (JSNum.fin 0, JSNum.fin 0), some (JSNum.nonNum, JSNum.nonNum),
        some (JSNum.fin 1, JSNum.fin 1)] false =
      Except.ok (FetchOutcome.request ⟨"route", "cycling",
        [(JSNum.fin 0, JSNum.fin 0), (JSNum.fin 1, JSNum.fin 1)]⟩) := by
  rw [fetchOsrmRoute_filters_nonnumeric_silently
    [some (JSNum.fin 0, JSNum.fin 0), some (JSNum.nonNum, JSNum.nonNum),
      some (JSNum.fin 1, JSNum.fin 1)] false (by decide)]
  rfl

/-! ## C7 / C10: the persisted route store and the draft -/

/-- C7: a rename whose new name is used by a different record, a save whose
name collides with an existing record when the user declines the overwrite
confirmation, and an update whose name is used by a different record, all
leave the stored route list exactly unchanged. -/
theorem name_collision_leaves_store_unchanged (routes : List SavedRoute)
    (routeId newName : String) (routingPoints : List LatLng)
    (currentRouteDistance : ℚ) (name description : String) (isRoundTrip : Bool)
    (newId created : String) (isRoundTripUpd : Option Bool) :
    ((∃ r ∈ routes, r.name = newName ∧ r.id ≠ routeId) →
      renameSavedRoute routes routeId newName = routes) ∧
    ((∃ r ∈ routes, r.name = name) →
      saveCurrentRoute routes routingPoints currentRouteDistance name description
        isRoundTrip false newId created = routes) ∧
    ((∃ r ∈ routes, r.name = name ∧ r.id ≠ routeId) →
      updateExistingRoute routes routeId routingPoints currentRouteDistance name
        description isRoundTripUpd = routes) := by
  refine ⟨fun hcoll => ?_, fun hcoll => ?_, fun hcoll => ?_⟩
  · obtain ⟨r, hr, hname, hid⟩ := hcoll
    have hany : routes.any (fun r => decide (r.name = newName) && decide (r.id ≠ routeId)) =
        true := by
      rw [List.any_eq_true]
      exact ⟨r, hr, by simp [hname, hid]⟩
    rw [renameSavedRoute]
    cases routes.find? fun r => decide (r.id = routeId) with
    | none => rfl
    | some r0 => simp only [if_pos hany]
  · obtain ⟨r, hr, hname⟩ := hcoll
    have hany : routes.any (fun route => decide (route.name = name)) = true := by
      rw [List.any_eq_true]
      exact ⟨r, hr, by simp [hname]⟩
    rw [saveCurrentRoute]
    split
    · rfl
    · simp only [hany, if_true, if_neg (Bool.false_ne_true)]
  · obtain ⟨r, hr, hname, hid⟩ := hcoll
    have hany : routes.any (fun r => decide (r.name = name) && decide (r.id ≠ routeId)) =
        true := by
      rw [List.any_eq_true]
      exact ⟨r, hr, by simp [hname, hid]⟩
    rw [updateExistingRoute]
    cases routes.find? fun r => decide (r.id = routeId) with
    | none => rfl
    | some r0 => simp only [if_pos hany]

/-- Witness for C7 (Scenario E flavour): with records "Loop" (`id1`) and "Ride"
(`id2`) stored, renaming `id2` to "Loop", saving a new "Loop" with the
confirmation declined, and updating `id2` to the name "Loop" each leave the
store unchanged. -/
theorem name_collision_leaves_store_unchanged_witness :
    renameSavedRoute
      [⟨"id1", "Loop", "", [], 0, none, "t1"⟩, ⟨"id2", "Ride", "", [], 0, none, "t2"⟩]
      "id2" "Loop" =
      [⟨"id1", "Loop", "", [], 0, none, "t1"⟩, ⟨"id2", "Ride", "", [], 0, none, "t2"⟩] ∧
    saveCurrentRoute
      [⟨"id1", "Loop", "", [], 0, none, "t1"⟩, ⟨"id2", "Ride", "", [], 0, none, "t2"⟩]
      [⟨0, 0⟩] 5 "Loop" "d" false false "id3" "t3" =
      [⟨"id1", "Loop", "", [], 0, none, "t1"⟩, ⟨"id2", "Ride", "", [], 0, none, "t2"⟩] ∧
    updateExistingRoute
      [⟨"id1", "Loop", "", [], 0, none, "t1"⟩, ⟨"id2", "Ride", "", [], 0, none, "t2"⟩]
      "id2" [⟨0, 0⟩] 5 "Loop" "d" none =
      [⟨"id1", "Loop", "", [], 0, none, "t1"⟩, ⟨"id2", "Ride", "", [], 0, none, "t2"⟩] := by
  refine ⟨?_, ?_, ?_⟩
  · exact (name_collision_leaves_store_unchanged
      [⟨"id1", "Loop", "", [], 0, none, "t1"⟩, ⟨"id2", "Ride", "", [], 0, none, "t2"⟩]
      "id2" "Loop" [⟨0, 0⟩] 5 "Loop" "d" false "id3" "t3" none).1
      ⟨⟨"id1", "Loop", "", [], 0, none, "t1"⟩, by simp, by simp⟩
  · exact (name_collision_leaves_store_unchanged
      [⟨"id1", "Loop", "", [], 0, none, "t1"⟩, ⟨"id2", "Ride", "", [], 0, none, "t2"⟩]
      "id2" "Loop" [⟨0, 0⟩] 5 "Loop" "d" false "id3" "t3" none).2.1
      ⟨⟨"id1", "Loop", "", [], 0, none, "t1"⟩, by simp, by simp⟩
  · exact (name_collision_leaves_store_unchanged
      [⟨"id1", "Loop", "", [], 0, none, "t1"⟩, ⟨"id2", "Ride", "", [], 0, none, "t2"⟩]
      "id2" "Loop" [⟨0, 0⟩] 5 "Loop" "d" false "id3" "t3" none).2.2
      ⟨⟨"id1", "Loop", "", [], 0, none, "t1"⟩, by simp, by simp⟩

/-- C10: loading a route id that is absent from the saved-route store leaves
the entire live draft unchanged — points, markers, displayed geometry,
distance, loaded-route id, round-trip flag and modification flag — and only
surfaces the not-found alert. -/
theorem loadSavedRoute_unknown_id_leaves_draft (routes : List SavedRoute)
    (routeId : String) (state : AppState)
    (h : ∀ r ∈ routes, r.id ≠ routeId) :
    loadSavedRoute routes routeId state = (state, true) := by
  have hfind : (routes.find? fun r => decide (r.id = routeId)) = none := by
    rw [List.find?_eq_none]
    intro r hr
    simp [h r hr]
  rw [loadSavedRoute, hfind]

/-- Witness for C10: loading the unknown id `missing` from a one-record store
leaves a concrete draft untouched and raises the alert. -/
theorem loadSavedRoute_unknown_id_leaves_draft_witness :
    loadSavedRoute [⟨"id1", "Loop", "", [], 0, none, "t1"⟩] "missing"
      ⟨[⟨1, 2⟩], [⟨1, 2⟩], [[⟨1, 2⟩, ⟨3, 4⟩]], 42, some "id9", true, true⟩ =
      (⟨[⟨1, 2⟩], [⟨1, 2⟩], [[⟨1, 2⟩, ⟨3, 4⟩]], 42, some "id9", true, true⟩, true) :=
  loadSavedRoute_unknown_id_leaves_draft [⟨"id1", "Loop", "", [], 0, none, "t1"⟩]
    "missing" ⟨[⟨1, 2⟩], [⟨1, 2⟩], [[⟨1, 2⟩, ⟨3, 4⟩]], 42, some "id9", true, true⟩
    (by decide)

/-! ## Loop characterization lemmas -/

lemma scanFirst_some_spec (p : ℕ → Bool) :
    ∀ (count i j : ℕ), scanFirst p count i = some j →
    i ≤ j ∧ j < i + count ∧ p j = true ∧ ∀ k, i ≤ k → k < j → p k = false := by
  intro count
  induction count with
  | zero => intro i j h; exact absurd h (by simp [scanFirst])
  | succ c ih =>
    intro i j h
    rw [scanFirst] at h
    by_cases hp : p i = true
    · rw [if_pos hp] at h
      injection h with h
      subst h
      exact ⟨le_refl i, by omega, hp, fun k hk1 hk2 => by omega⟩
    · rw [if_neg hp] at h
      obtain ⟨h1, h2, h3, h4⟩ := ih (i + 1) j h
      refine ⟨by omega, by omega, h3, fun k hk1 hk2 => ?_⟩
      rcases Nat.eq_or_lt_of_le hk1 with he | hl
      · rw [← he]; exact Bool.eq_false_iff.mpr hp
      · exact h4 k hl hk2

lemma scanFirst_none_spec (p : ℕ → Bool) :
    ∀ (count i : ℕ), scanFirst p count i = none →
    ∀ k, i ≤ k → k < i + count → p k = false := by
  intro count
  induction count with
  | zero => intro i h k hk1 hk2; omega
  | succ c ih =>
    intro i h k hk1 hk2
    rw [scanFirst] at h
    by_cases hp : p i = true
    · rw [if_pos hp] at h; exact Option.noConfusion h
    · rw [if_neg hp] at h
      rcases Nat.eq_or_lt_of_le hk1 with he | hl
      · rw [← he]; exact Bool.eq_false_iff.mpr hp
      · exact ih (i + 1) h k hl (by omega)

lemma bestGapLoop_some_spec (len : ℕ → ℚ) :
    ∀ (count i : ℕ) (g : ℚ) (j0 : ℕ), len j0 = g →
    ∃ j, (j = j0 ∨ (i ≤ j ∧ j < i + count)) ∧
      bestGapLoop len count i (some g) (j0 + 1) = j + 1 ∧ len j ≤ g ∧
      ∀ k, i ≤ k → k < i + count → len j ≤ len k := by
  intro count
  induction count with
  | zero =>
    intro i g j0 hg
    exact ⟨j0, Or.inl rfl, by rw [bestGapLoop], le_of_eq hg, fun k hk1 hk2 => by omega⟩
  | succ c ih =>
    intro i g j0 hg
    rw [bestGapLoop]
    simp only [Option.map_some', Option.getD_some, decide_eq_true_eq]
    by_cases hlt : len i < g
    · rw [if_pos hlt]
      obtain ⟨j, hj, heq, hle, hmin⟩ := ih (i + 1) (len i) i rfl
      refine ⟨j, ?_, heq, le_of_lt (lt_of_le_of_lt hle hlt), fun k hk1 hk2 => ?_⟩
      · rcases hj with hj | hj
        · exact Or.inr (by omega)
        · exact Or.inr (by omega)
      · rcases Nat.eq_or_lt_of_le hk1 with he | hl
        · rw [← he]; exact hle
        · exact hmin k hl (by omega)
    · rw [if_neg hlt]
      obtain ⟨j, hj, heq, hle, hmin⟩ := ih (i + 1) g j0 hg
      refine ⟨j, ?_, heq, hle, fun k hk1 hk2 => ?_⟩
      · rcases hj with hj | hj
        · exact Or.inl hj
        · exact Or.inr (by omega)
      · rcases Nat.eq_or_lt_of_le hk1 with he | hl
        · rw [← he]; exact le_trans hle (not_lt.mp hlt)
        · exact hmin k hl (by omega)

lemma bestGapLoop_none_spec (len : ℕ → ℚ) (count i bi : ℕ) (hc : 0 < count) :
    ∃ j, i ≤ j ∧ j < i + count ∧ bestGapLoop len count i none bi = j + 1 ∧
      ∀ k, i ≤ k → k < i + count → len j ≤ len k := by
  obtain ⟨c, rfl⟩ : ∃ c, count = c + 1 := ⟨count - 1, by omega⟩
  rw [bestGapLoop]
  simp only [Option.map_none', Option.getD_none, if_true]
  obtain ⟨j, hj, heq, hle, hmin⟩ := bestGapLoop_some_spec len c (i + 1) (len i) i rfl
  refine ⟨j, ?_, ?_, heq, fun k hk1 hk2 => ?_⟩
  · rcases hj with hj | hj
    · omega
    · omega
  · rcases hj with hj | hj
    · omega
    · omega
  · rcases Nat.eq_or_lt_of_le hk1 with he | hl
    · rw [← he]; exact hle
    · exact hmin k hl (by omega)

lemma bestGapLoop_le (len : ℕ → ℚ) :
    ∀ (count i : ℕ) (g : Option ℚ) (bi : ℕ),
    bestGapLoop len count i g bi ≤ max bi (i + count) := by
  intro count
  induction count with
  | zero => intro i g bi; rw [bestGapLoop]; omega
  | succ c ih =>
    intro i g bi
    rw [bestGapLoop]
    split
    · have := ih (i + 1) (some (len i)) (i + 1); omega
    · have := ih (i + 1) g bi; omega

lemma findBestInsertionIndex_le (d : Dist) (routingPoints : List LatLng)
    (anchorPoint : LatLng) (routeLatLngs : List LatLng) (cumulativeDistances : List ℚ) :
    findBestInsertionIndex d routingPoints anchorPoint routeLatLngs cumulativeDistances ≤
      routingPoints.length := by
  rw [findBestInsertionIndex]
  split
  · next i heq =>
    have := scanFirst_some_spec _ _ _ _ heq
    omega
  · next heq =>
    have := bestGapLoop_le
      (wrappedGapLength
        (routingPoints.map fun rp =>
          (projectPointOntoPolyline d rp routeLatLngs cumulativeDistances).2)
        (cumulativeDistances.getLastD 0))
      routingPoints.length 0 none routingPoints.length
    omega

lemma nearestSegLoop_fst_le (routingPoints : List LatLng) (referencePoint : LatLng) :
    ∀ (count i : ℕ) (minDistance : Option ℚ) (best : ℕ × ℕ), 0 < routingPoints.length →
    (nearestSegLoop routingPoints referencePoint count i minDistance best).1 ≤
      max best.1 (routingPoints.length - 1) := by
  intro count
  induction count with
  | zero => intro i minDistance best h; rw [nearestSegLoop]; omega
  | succ c ih =>
    intro i minDistance best h
    rw [nearestSegLoop]
    split
    · have hmod : (i + 1) % routingPoints.length < routingPoints.length := Nat.mod_lt _ h
      have := ih (i + 1)
        (some (getDistanceToLineSegmentSq referencePoint
          (routingPoints.getD i default)
          (routingPoints.getD ((i + 1) % routingPoints.length) default)))
        ((i + 1) % routingPoints.length, i) h
      omega
    · exact ih (i + 1) minDistance best h

lemma insertWaypointByNearestSegment_spec (dropPoint : LatLng)
    (routingPoints : List LatLng) (snapResult anchorPoint : Option LatLng)
    (h : 2 ≤ routingPoints.length) :
    ∃ i, i ≤ routingPoints.length ∧
      insertWaypointByNearestSegment dropPoint routingPoints snapResult anchorPoint =
        spliceInsert routingPoints i (snapResult.getD dropPoint) := by
  rw [insertWaypointByNearestSegment]
  refine ⟨_, ?_, rfl⟩
  split
  · exact le_refl _
  · have := nearestSegLoop_fst_le routingPoints (anchorPoint.getD dropPoint)
      routingPoints.length 0 none (1, 0) (by omega)
    omega

/-! ## C6: degenerate segments -/

/-- C6: for every point and every zero-length segment, all three
point-to-segment computations (the in-loop projection of
`projectPointOntoPolyline`, `projectPointToSegment`, and
`getDistanceToLineSegment`) take the guarded branch instead of dividing by
the zero squared length, and the projection they use is the segment start:
both projections return the segment start, and the distance returned is the
distance from the point to the segment start. -/
theorem degenerate_segment_projects_to_start (p a : LatLng) :
    projectPointToSegment p a a = (⟨a.lat, a.lng⟩, 0) ∧
    projOnSegmentPoint p a a = ⟨a.lat, a.lng⟩ ∧
    getDistanceToLineSegmentSq p a a =
      (p.lat - a.lat) * (p.lat - a.lat) + (p.lng - a.lng) * (p.lng - a.lng) := by
  refine ⟨?_, ?_, ?_⟩
  · simp [projectPointToSegment]
  · simp [projOnSegmentPoint]
  · simp [getDistanceToLineSegmentSq]

/-! ## C3: insertion never loses points and inserts the drop point -/

/-- C3: with fewer than 2 routing points, `insertWaypointAtBestPosition` is a
no-op; otherwise the points list grows by exactly one element and the
inserted coordinate is the road-snapped drop point (the raw drop point when
snapping failed) — never the anchor, which only selects the position. -/
theorem insertAtBestPosition_length_and_point (d : Dist) (dropPoint : LatLng)
    (routingPoints : List LatLng) (usedPolyline : Option (List LatLng))
    (snapResult anchorPoint : Option LatLng) :
    (routingPoints.length < 2 →
      insertWaypointAtBestPosition d dropPoint routingPoints usedPolyline snapResult
        anchorPoint = routingPoints) ∧
    (2 ≤ routingPoints.length →
      (insertWaypointAtBestPosition d dropPoint routingPoints usedPolyline snapResult
        anchorPoint).length = routingPoints.length + 1 ∧
      ∃ i, i ≤ routingPoints.length ∧
        insertWaypointAtBestPosition d dropPoint routingPoints usedPolyline snapResult
          anchorPoint = spliceInsert routingPoints i (snapResult.getD dropPoint)) := by
  constructor
  · intro h
    simp only [insertWaypointAtBestPosition, if_pos h]
  · intro h
    have hnot : ¬ routingPoints.length < 2 := by omega
    suffices hs : ∃ i, i ≤ routingPoints.length ∧
        insertWaypointAtBestPosition d dropPoint routingPoints usedPolyline snapResult
          anchorPoint = spliceInsert routingPoints i (snapResult.getD dropPoint) by
      obtain ⟨i, hi, he⟩ := hs
      exact ⟨by rw [he, spliceInsert_length], ⟨i, hi, he⟩⟩
    simp only [insertWaypointAtBestPosition, if_neg hnot]
    cases usedPolyline with
    | none =>
      exact insertWaypointByNearestSegment_spec dropPoint routingPoints snapResult anchorPoint h
    | some polyline =>
      dsimp only
      cases hp : insertWaypointByPolylineProjection d dropPoint routingPoints polyline snapResult anchorPoint with
      | none =>
        exact insertWaypointByNearestSegment_spec dropPoint routingPoints snapResult anchorPoint h
      | some res =>
        have hres : res = spliceInsert routingPoints
            (findBestInsertionIndex d routingPoints (anchorPoint.getD dropPoint) polyline
              (calculateCumulativeDistances d polyline)) (snapResult.getD dropPoint) := by
          rw [insertWaypointByPolylineProjection] at hp
          split at hp
          · exact Option.noConfusion hp
          · injection hp with hp
            exact hp.symm
        exact ⟨_, findBestInsertionIndex_le d routingPoints (anchorPoint.getD dropPoint)
          polyline (calculateCumulativeDistances d polyline), hres⟩

/-- Witness for C3: a 2-point draft with no polyline available grows to 3
points and the snapped drop point `(6,6)` is the inserted coordinate; a
1-point draft is untouched. -/
theorem insertAtBestPosition_length_and_point_witness :
    ((insertWaypointAtBestPosition (fun a b => |a.lat - b.lat| + |a.lng - b.lng|)
        ⟨5, 5⟩ [⟨0, 0⟩, ⟨0, 10⟩] none (some ⟨6, 6⟩) (some ⟨0, 3⟩)).length = 2 + 1 ∧
      ∃ i, i ≤ ([⟨0, 0⟩, ⟨0, 10⟩] : List LatLng).length ∧
        insertWaypointAtBestPosition (fun a b => |a.lat - b.lat| + |a.lng - b.lng|)
          ⟨5, 5⟩ [⟨0, 0⟩, ⟨0, 10⟩] none (some ⟨6, 6⟩) (some ⟨0, 3⟩) =
          spliceInsert [⟨0, 0⟩, ⟨0, 10⟩] i ((some (⟨6, 6⟩ : LatLng)).getD ⟨5, 5⟩)) ∧
    insertWaypointAtBestPosition (fun a b => |a.lat - b.lat| + |a.lng - b.lng|)
      ⟨5, 5⟩ [⟨0, 0⟩] none (some ⟨6, 6⟩) (some ⟨0, 3⟩) = [⟨0, 0⟩] :=
  ⟨(insertAtBestPosition_length_and_point (fun a b => |a.lat - b.lat| + |a.lng - b.lng|)
      ⟨5, 5⟩ [⟨0, 0⟩, ⟨0, 10⟩] none (some ⟨6, 6⟩) (some ⟨0, 3⟩)).2 (by decide),
    (insertAtBestPosition_length_and_point (fun a b => |a.lat - b.lat| + |a.lng - b.lng|)
      ⟨5, 5⟩ [⟨0, 0⟩] none (some ⟨6, 6⟩) (some ⟨0, 3⟩)).1 (by decide)⟩

/-! ## C1: polyline-projection insertion chooses the containing gap -/

lemma findBestInsertionIndex_spec (d : Dist) (routingPoints : List LatLng)
    (anchorPoint : LatLng) (routeLatLngs : List LatLng) (cum along : List ℚ)
    (total na : ℚ) (hm : 0 < routingPoints.length)
    (halong : along = routingPoints.map fun rp =>
      (projectPointOntoPolyline d rp routeLatLngs cum).2)
    (htotal : total = cum.getLastD 0)
    (hna : na = (projectPointOntoPolyline d anchorPoint routeLatLngs cum).2) :
    ((∃ i, i < routingPoints.length ∧ wrappedGapContains along total na i = true) →
      ∃ i, i < routingPoints.length ∧ wrappedGapContains along total na i = true ∧
        (∀ j, j < i → wrappedGapContains along total na j = false) ∧
        findBestInsertionIndex d routingPoints anchorPoint routeLatLngs cum = i + 1) ∧
    ((∀ i, i < routingPoints.length → wrappedGapContains along total na i = false) →
      ∃ i, i < routingPoints.length ∧
        (∀ j, j < routingPoints.length →
          wrappedGapLength along total i ≤ wrappedGapLength along total j) ∧
        findBestInsertionIndex d routingPoints anchorPoint routeLatLngs cum = i + 1) := by
  subst halong htotal hna
  constructor
  · rintro ⟨i, him, hci⟩
    rw [findBestInsertionIndex]
    split
    · next i0 heq =>
      obtain ⟨-, hi0m, hp0, hmin0⟩ := scanFirst_some_spec _ _ _ _ heq
      exact ⟨i0, by omega, hp0, fun j hj => hmin0 j (Nat.zero_le j) hj, rfl⟩
    · next heq =>
      have hfalse := scanFirst_none_spec _ _ _ heq i (Nat.zero_le i) (by omega)
      rw [hci] at hfalse
      exact Bool.noConfusion hfalse
  · intro hall
    rw [findBestInsertionIndex]
    split
    · next i0 heq =>
      obtain ⟨-, hi0m, hp0, -⟩ := scanFirst_some_spec _ _ _ _ heq
      have hf := hall i0 (by omega)
      rw [hf] at hp0
      exact Bool.noConfusion hp0
    · next heq =>
      obtain ⟨j, h0j, hjm, heqb, hminj⟩ := bestGapLoop_none_spec
        (wrappedGapLength
          (routingPoints.map fun rp => (projectPointOntoPolyline d rp routeLatLngs cum).2)
          (cum.getLastD 0))
        routingPoints.length 0 routingPoints.length hm
      exact ⟨j, by omega, fun k hk => hminj k (Nat.zero_le k) (by omega), heqb⟩

/-- C1: for a draft with at least 2 routing points and a polyline with at
least 2 coordinates, polyline-projection insertion computes arc-length
positions (`along` for the existing waypoints, `na` for the anchor) by
projection onto the polyline, splices the snapped-or-raw drop point in at
`findBestInsertionIndex`, and that index is `i + 1` for the first gap `i`
(consecutive waypoints on a closed loop, wrapping from the last back to the
first) whose wrapped arc-length interval contains the anchor position — and
when no gap contains it, `i + 1` for a gap `i` of smallest wrapped length. -/
theorem insertByPolylineProjection_gap_selection (d : Dist) (dropPoint : LatLng)
    (routingPoints routeLatLngs : List LatLng) (snapResult anchorPoint : Option LatLng)
    (cum along : List ℚ) (total na : ℚ) (m r : ℕ)
    (hm : 2 ≤ routingPoints.length) (hrt : 2 ≤ routeLatLngs.length)
    (hcum : cum = calculateCumulativeDistances d routeLatLngs)
    (halong : along = routingPoints.map fun rp =>
      (projectPointOntoPolyline d rp routeLatLngs cum).2)
    (htotal : total = cum.getLastD 0)
    (hna : na = (projectPointOntoPolyline d (anchorPoint.getD dropPoint) routeLatLngs cum).2)
    (hmdef : m = routingPoints.length)
    (hrdef : r = findBestInsertionIndex d routingPoints (anchorPoint.getD dropPoint)
      routeLatLngs cum) :
    insertWaypointByPolylineProjection d dropPoint routingPoints routeLatLngs snapResult
      anchorPoint = some (spliceInsert routingPoints r (snapResult.getD dropPoint)) ∧
    ((∃ i, i < m ∧ wrappedGapContains along total na i = true) →
      ∃ i, i < m ∧ wrappedGapContains along total na i = true ∧
        (∀ j, j < i → wrappedGapContains along total na j = false) ∧ r = i + 1) ∧
    ((∀ i, i < m → wrappedGapContains along total na i = false) →
      ∃ i, i < m ∧
        (∀ j, j < m → wrappedGapLength along total i ≤ wrappedGapLength along total j) ∧
        r = i + 1) := by
  subst hcum halong htotal hna hmdef hrdef
  have hspec := findBestInsertionIndex_spec d routingPoints (anchorPoint.getD dropPoint)
    routeLatLngs (calculateCumulativeDistances d routeLatLngs) _ _ _
    (by omega) rfl rfl rfl
  refine ⟨?_, hspec.1, hspec.2⟩
  simp only [insertWaypointByPolylineProjection,
    if_neg (show ¬ routeLatLngs.length < 2 by omega)]

/-- Witness for C1: with draft points `[(0,0), (0,10)]`, route polyline
`[(0,0), (0,5), (0,10)]` and anchor `(0,3)`, the insertion splices the
snapped drop point in at the computed index. -/
theorem insertByPolylineProjection_gap_selection_witness :
    insertWaypointByPolylineProjection (fun a b => |a.lat - b.lat| + |a.lng - b.lng|)
      ⟨5, 5⟩ [⟨0, 0⟩, ⟨0, 10⟩] [⟨0, 0⟩, ⟨0, 5⟩, ⟨0, 10⟩] (some ⟨6, 6⟩) (some ⟨0, 3⟩) =
      some (spliceInsert [⟨0, 0⟩, ⟨0, 10⟩]
        (findBestInsertionIndex (fun a b => |a.lat - b.lat| + |a.lng - b.lng|)
          [⟨0, 0⟩, ⟨0, 10⟩] ((some (⟨0, 3⟩ : LatLng)).getD ⟨5, 5⟩)
          [⟨0, 0⟩, ⟨0, 5⟩, ⟨0, 10⟩]
          (calculateCumulativeDistances (fun a b => |a.lat - b.lat| + |a.lng - b.lng|)
            [⟨0, 0⟩, ⟨0, 5⟩, ⟨0, 10⟩]))
        ((some (⟨6, 6⟩ : LatLng)).getD ⟨5, 5⟩)) :=
  (insertByPolylineProjection_gap_selection
    (fun a b => |a.lat - b.lat| + |a.lng - b.lng|) ⟨5, 5⟩ [⟨0, 0⟩, ⟨0, 10⟩]
    [⟨0, 0⟩, ⟨0, 5⟩, ⟨0, 10⟩] (some ⟨6, 6⟩) (some ⟨0, 3⟩) _ _ _ _ _ _
    (by decide) (by decide) rfl rfl rfl rfl rfl rfl).1

/-! ## C5: distance-along-path stays within the path bounds -/

lemma foldl_add_dist (d : Dist) :
    ∀ (s : List (LatLng × LatLng)) (c : ℚ),
    s.foldl (fun acc ab => acc + d ab.1 ab.2) c = c + (s.map fun ab => d ab.1 ab.2).sum := by
  intro s
  induction s with
  | nil => intro c; simp
  | cons ab rest ih =>
    intro c
    rw [List.foldl_cons, ih (c + d ab.1 ab.2), List.map_cons, List.sum_cons]
    ring

lemma scanl_add_getLastD (d : Dist) :
    ∀ (s : List (LatLng × LatLng)) (c x : ℚ),
    (s.scanl (fun acc ab => acc + d ab.1 ab.2) c).getLastD x =
      s.foldl (fun acc ab => acc + d ab.1 ab.2) c := by
  intro s
  induction s with
  | nil => intro c x; rfl
  | cons ab rest ih =>
    intro c x
    rw [List.scanl_cons, List.singleton_append, List.getLastD_cons, ih, List.foldl_cons]

lemma segpairs_sum_nonneg (d : Dist) (hd : ∀ a b, 0 ≤ d a b)
    (s : List (LatLng × LatLng)) : 0 ≤ (s.map fun ab => d ab.1 ab.2).sum := by
  apply List.sum_nonneg
  intro y hy
  obtain ⟨ab, -, rfl⟩ := List.mem_map.mp hy
  exact hd ab.1 ab.2

lemma cum_getLastD_eq_sum (d : Dist) (latlngs : List LatLng) :
    (calculateCumulativeDistances d latlngs).getLastD 0 =
      ((segpairs latlngs).map fun ab => d ab.1 ab.2).sum := by
  rw [calculateCumulativeDistances, scanl_add_getLastD, foldl_add_dist, zero_add]

lemma take_sum_le (f : (LatLng × LatLng) → ℚ) (hf : ∀ ab, 0 ≤ f ab) :
    ∀ (s : List (LatLng × LatLng)) (k : ℕ) (ab : LatLng × LatLng), s.get? k = some ab →
    ((s.take k).map f).sum + f ab ≤ (s.map f).sum := by
  intro s
  induction s with
  | nil => intro k ab h; exact absurd h (by simp)
  | cons x rest ih =>
    intro k ab h
    cases k with
    | zero =>
      injection h with h
      subst h
      simp only [List.take_zero, List.map_nil, List.sum_nil, zero_add, List.map_cons,
        List.sum_cons]
      have hrest : 0 ≤ (rest.map f).sum := by
        apply List.sum_nonneg
        intro y hy
        obtain ⟨ab2, -, rfl⟩ := List.mem_map.mp hy
        exact hf ab2
      linarith
    | succ k2 =>
      rw [List.get?_cons_succ] at h
      have hrec := ih k2 ab h
      simp only [List.take_succ_cons, List.map_cons, List.sum_cons]
      linarith

lemma segpairs_cons₂ (x y : LatLng) (rest : List LatLng) :
    segpairs (x :: y :: rest) = (x, y) :: segpairs (y :: rest) := rfl

lemma segpairs_get?_fst :
    ∀ (latlngs : List LatLng) (k : ℕ) (a b : LatLng),
    (segpairs latlngs).get? k = some (a, b) → latlngs.getD k default = a := by
  intro latlngs
  induction latlngs with
  | nil => intro k a b h; exact absurd h (by simp [segpairs])
  | cons x rest ih =>
    intro k a b h
    cases rest with
    | nil => exact absurd h (by simp [segpairs])
    | cons y rest2 =>
      rw [segpairs_cons₂] at h
      cases k with
      | zero =>
        injection h with h
        rw [List.getD_cons_zero]
        exact congrArg Prod.fst h
      | succ k2 =>
        rw [List.get?_cons_succ] at h
        rw [List.getD_cons_succ]
        exact ih k2 a b h

lemma nearestScan_some_inv (d : Dist) (point : LatLng) :
    ∀ (segs : List (LatLng × LatLng)) (i : ℕ) (acc : Option (ℚ × ℕ × LatLng))
      (r : ℚ × ℕ × LatLng),
    nearestScan d point segs i acc = some r →
    acc = some r ∨ ∃ k, k < segs.length ∧ r.2.1 = i + k ∧
      ∃ ab : LatLng × LatLng, segs.get? k = some ab ∧
        r.2.2 = (projectPointToSegment point ab.1 ab.2).1 := by
  intro segs
  induction segs with
  | nil =>
    intro i acc r h
    rw [nearestScan.eq_def] at h
    exact Or.inl h
  | cons ab rest ih =>
    intro i acc r h
    obtain ⟨a, b⟩ := ab
    rw [nearestScan.eq_def] at h
    cases acc with
    | none =>
      dsimp only at h
      rcases ih (i + 1) _ r h with hacc2 | ⟨k, hk, hik, ab2, hget, hproj⟩
      · injection hacc2 with hacc2
        refine Or.inr ⟨0, by simp, ?_, (a, b), rfl, ?_⟩
        · rw [← hacc2]; simp
        · rw [← hacc2]
      · exact Or.inr ⟨k + 1, by simpa using hk, by omega, ab2, by simpa using hget, hproj⟩
    | some n =>
      dsimp only at h
      by_cases hdd : d (projectPointToSegment point a b).1 point < n.1
      · rw [if_pos hdd] at h
        rcases ih (i + 1) _ r h with hacc2 | ⟨k, hk, hik, ab2, hget, hproj⟩
        · injection hacc2 with hacc2
          refine Or.inr ⟨0, by simp, ?_, (a, b), rfl, ?_⟩
          · rw [← hacc2]; simp
          · rw [← hacc2]
        · exact Or.inr ⟨k + 1, by simpa using hk, by omega, ab2, by simpa using hget, hproj⟩
      · rw [if_neg hdd] at h
        rcases ih (i + 1) _ r h with hacc2 | ⟨k, hk, hik, ab2, hget, hproj⟩
        · exact Or.inl hacc2
        · exact Or.inr ⟨k + 1, by simpa using hk, by omega, ab2, by simpa using hget, hproj⟩

/-- C5: for every polyline with at least 2 coordinates and every input point,
both arc-length projections — `projectPointOntoPolyline`'s clamped
`alongDistance` and `distanceAlongPolyline` — lie within
`[0, totalPathLength]`, where `totalPathLength` is the last entry of the
cumulative-distance table.  The abstract metric is assumed non-negative and
compatible with segment projection (the projection of a point onto a segment
is no farther from the segment start than its end is), which the source's
great-circle metric satisfies on route-scale geometry. -/
theorem projection_along_within_bounds (d : Dist) (latlngs : List LatLng) (point : LatLng)
    (hd : ∀ a b, 0 ≤ d a b)
    (hcompat : ∀ q a b, d a (projectPointToSegment q a b).1 ≤ d a b)
    (hlen : 2 ≤ latlngs.length) :
    (0 ≤ (projectPointOntoPolyline d point latlngs
        (calculateCumulativeDistances d latlngs)).2 ∧
      (projectPointOntoPolyline d point latlngs
        (calculateCumulativeDistances d latlngs)).2 ≤
        (calculateCumulativeDistances d latlngs).getLastD 0) ∧
    (0 ≤ distanceAlongPolyline d latlngs point ∧
      distanceAlongPolyline d latlngs point ≤
        (calculateCumulativeDistances d latlngs).getLastD 0) := by
  have htotal0 : 0 ≤ (calculateCumulativeDistances d latlngs).getLastD 0 := by
    rw [cum_getLastD_eq_sum]
    exact segpairs_sum_nonneg d hd _
  refine ⟨⟨?_, ?_⟩, ?_⟩
  · exact le_max_left 0 _
  · exact max_le htotal0 (min_le_left _ _)
  · cases hscan : nearestScan d point (segpairs latlngs) 0 none with
    | none =>
      simp only [distanceAlongPolyline, hscan]
      exact ⟨le_refl 0, htotal0⟩
    | some n =>
      rcases nearestScan_some_inv d point (segpairs latlngs) 0 none n hscan with
        habs | ⟨k, hk, hik, ab, hget, hproj⟩
      · exact absurd habs (by simp)
      · obtain ⟨a, b⟩ := ab
        have hik2 : n.2.1 = k := by omega
        have ha : latlngs.getD k default = a := segpairs_get?_fst latlngs k a b hget
        simp only [distanceAlongPolyline, hscan]
        rw [hik2, ha, hproj]
        have hsum : sumSegs d latlngs k =
            (((segpairs latlngs).take k).map fun ab => d ab.1 ab.2).sum := by
          rw [sumSegs, foldl_add_dist, zero_add]
        have hsum0 : 0 ≤ (((segpairs latlngs).take k).map fun ab => d ab.1 ab.2).sum :=
          segpairs_sum_nonneg d hd _
        have hdp := hd a (projectPointToSegment point a b).1
        constructor
        · rw [hsum]; linarith
        · rw [hsum, cum_getLastD_eq_sum]
          have h3 := hcompat point a b
          have h4 := take_sum_le (fun ab => d ab.1 ab.2) (fun ab => hd ab.1 ab.2)
            (segpairs latlngs) k (a, b) hget
          dsimp only at h4
          linarith

/-- Witness for C5 at a concrete metric and polyline: the constant-1 metric
is non-negative and segment-compatible, and both projections of the point
`(7, 7)` onto the polyline `[(0,0), (0,5), (0,10)]` stay within
`[0, totalPathLength]`. -/
theorem projection_along_within_bounds_witness :
    (0 ≤ (projectPointOntoPolyline (fun a b => 1) ⟨7, 7⟩ [⟨0, 0⟩, ⟨0, 5⟩, ⟨0, 10⟩]
        (calculateCumulativeDistances (fun a b => 1) [⟨0, 0⟩, ⟨0, 5⟩, ⟨0, 10⟩])).2 ∧
      (projectPointOntoPolyline (fun a b => 1) ⟨7, 7⟩ [⟨0, 0⟩, ⟨0, 5⟩, ⟨0, 10⟩]
        (calculateCumulativeDistances (fun a b => 1) [⟨0, 0⟩, ⟨0, 5⟩, ⟨0, 10⟩])).2 ≤
        (calculateCumulativeDistances (fun a b => 1) [⟨0, 0⟩, ⟨0, 5⟩, ⟨0, 10⟩]).getLastD 0) ∧
    (0 ≤ distanceAlongPolyline (fun a b => 1) [⟨0, 0⟩, ⟨0, 5⟩, ⟨0, 10⟩] ⟨7, 7⟩ ∧
      distanceAlongPolyline (fun a b => 1) [⟨0, 0⟩, ⟨0, 5⟩, ⟨0, 10⟩] ⟨7, 7⟩ ≤
        (calculateCumulativeDistances (fun a b => 1) [⟨0, 0⟩, ⟨0, 5⟩, ⟨0, 10⟩]).getLastD 0) :=
  projection_along_within_bounds (fun a b => 1) [⟨0, 0⟩, ⟨0, 5⟩, ⟨0, 10⟩] ⟨7, 7⟩
    (fun a b => by norm_num) (fun q a b => by norm_num) (by decide)

attribute [local semireducible] Rat.add Rat.mul Rat.sub Rat.inv Rat.ofScientific

/-! ## C8: GPX decoding and the simplification loop -/

lemma trimLoop_spec (coords : List Pt) (maxPoints : ℕ) :
    ∀ (fuel : ℕ) (t : ℚ), maxThreshold ≤ t * 2 ^ fuel →
    ∀ tf res, trimLoop coords maxPoints fuel t (trimTrkpt coords t) = (tf, res) →
    res = trimTrkpt coords tf ∧ (res.length ≤ maxPoints ∨ maxThreshold ≤ tf) := by
  intro fuel
  induction fuel with
  | zero =>
    intro t hcap tf res h
    rw [trimLoop] at h
    injection h with h1 h2
    subst h1
    subst h2
    refine ⟨rfl, Or.inr ?_⟩
    simpa using hcap
  | succ f ih =>
    intro t hcap tf res h
    rw [trimLoop] at h
    split at h
    · next hcond =>
      have ht0 : 0 < t := by
        by_contra hneg
        push_neg at hneg
        have h2p : (0 : ℚ) ≤ 2 ^ (f + 1) := by positivity
        have hle : t * 2 ^ (f + 1) ≤ 0 := by
          have := mul_le_mul_of_nonneg_right hneg h2p
          simpa using this
        have : maxThreshold ≤ (0 : ℚ) := le_trans hcap hle
        norm_num [maxThreshold] at this
      have ht2 : ¬ (t * 2 = 0) := by
        exact mul_ne_zero (ne_of_gt ht0) two_ne_zero
      simp only [if_neg ht2] at h
      apply ih (t * 2) ?_ tf res h
      calc maxThreshold ≤ t * 2 ^ (f + 1) := hcap
        _ = t * 2 * 2 ^ f := by ring
    · next hcond =>
      injection h with h1 h2
      subst h1
      subst h2
      refine ⟨rfl, ?_⟩
      rcases not_and_or.mp hcond with hlen | hcap2
      · exact Or.inl (by omega)
      · exact Or.inr (not_lt.mp hcap2)

/-- Counterexample to C8 as stated: for the 5-point zigzag
`[(0,0), (1,1), (0,2), (1,3), (0,4)]` (degree-amplitude deviations far above
every threshold the loop can reach) decoded with a maximum point count of 3,
the doubling loop stops at the `maxThreshold` cap of 0.001 degrees and the
decoded output still has 5 points — more than the maximum. -/
theorem trimGPXPoints_can_exceed_maxPoints :
    (trimGPXPoints [(0, 0), (1, 1), (0, 2), (1, 3), (0, 4)] precisionVERYHIGH 3).length = 5 ∧
    ¬ (trimGPXPoints [(0, 0), (1, 1), (0, 2), (1, 3), (0, 4)]
        precisionVERYHIGH 3).length ≤ 3 := by
  constructor
  · decide
  · decide

/-- C8 (amended): when the extracted flat point count exceeds the maximum
point count, the decoder reduces the count by iteratively doubling the
simplification threshold — the output is always a simplification
(`trimTrkpt`) of the full point list at the final threshold, never a
truncation — and the output is within the maximum unless the doubling
reached the 0.001-degree threshold cap first (in which case the simplified
list may still exceed the maximum). -/
theorem trimGPXPoints_simplifies_never_truncates (points : List Pt) (threshold : ℚ)
    (maxPoints : ℕ) (hcap : maxThreshold ≤ threshold * 2 ^ 1000)
    (hover : maxPoints < points.length) (hpos : 0 < maxPoints) :
    ∃ tf, trimGPXPoints points threshold maxPoints = trimTrkpt points tf ∧
      ((trimGPXPoints points threshold maxPoints).length ≤ maxPoints ∨
        maxThreshold ≤ tf) := by
  have hpair := trimLoop_spec points maxPoints 1000 threshold hcap
    (trimLoop points maxPoints 1000 threshold (trimTrkpt points threshold)).1
    (trimLoop points maxPoints 1000 threshold (trimTrkpt points threshold)).2 rfl
  refine ⟨(trimLoop points maxPoints 1000 threshold (trimTrkpt points threshold)).1, ?_, ?_⟩
  · rw [trimGPXPoints, if_pos ⟨hover, hpos⟩]
    exact hpair.1
  · rw [trimGPXPoints, if_pos ⟨hover, hpos⟩]
    exact hpair.2

/-- Witness for the amended C8 at the zigzag input: the output is a
simplification of the full list at some final threshold, and (here) the
threshold cap was reached. -/
theorem trimGPXPoints_simplifies_never_truncates_witness :
    ∃ tf, trimGPXPoints [(0, 0), (1, 1), (0, 2), (1, 3), (0, 4)] precisionVERYHIGH 3 =
        trimTrkpt [(0, 0), (1, 1), (0, 2), (1, 3), (0, 4)] tf ∧
      ((trimGPXPoints [(0, 0), (1, 1), (0, 2), (1, 3), (0, 4)]
          precisionVERYHIGH 3).length ≤ 3 ∨ maxThreshold ≤ tf) :=
  trimGPXPoints_simplifies_never_truncates [(0, 0), (1, 1), (0, 2), (1, 3), (0, 4)]
    precisionVERYHIGH 3 (by norm_num [maxThreshold, precisionVERYHIGH]) (by decide)
    (by decide)

end CyclePlan
